import Mathlib

/-!
Verification development for the json-schema-lite validator.

The source of truth is `src/index.js` (the keyword dispatch loop, the keyword
handlers and the `validate` entry point).  The tree utilities imported from
`./jsonast-util.js` and the external primitives (URI library, JSON Pointer
library, deterministic canonicalizer, regex engine) are not part of the given
sources; they are modelled from the specification where a definition below says
so.  JavaScript numbers are modelled as exact rationals, mutation of the error
array as a returned list, thrown exceptions as `Except.error`, and the
unbounded JS call stack as an explicit fuel argument (exhaustion behaves like
the thrown `RangeError`).  The ECMA regex engine is an abstract parameter
`test : String → String → Bool` threaded through evaluation.
-/

/-- Plain JSON values, the input type of `validate` and `registerSchema`.
Numbers are modelled as exact rationals. -/
inductive Json where
  | null : Json
  | bool (value : Bool) : Json
  | num (value : Rat) : Json
  | str (value : String) : Json
  | arr (elements : List Json) : Json
  | obj (members : List (String × Json)) : Json

/-- Located JSON tree node (the LJT of the spec, `jsonast.d.ts`): every node
carries its location string.  Object members are `(key, value-node)` pairs;
the property wrapper and the key node of the source AST carry no information
used by `index.js` beyond the key string and the value node. -/
inductive JsonNode where
  | null (location : String) : JsonNode
  | bool (location : String) (value : Bool) : JsonNode
  | num (location : String) (value : Rat) : JsonNode
  | str (location : String) (value : String) : JsonNode
  | arr (location : String) (children : List JsonNode) : JsonNode
  | obj (location : String) (children : List (String × JsonNode)) : JsonNode

def JsonNode.location : JsonNode → String
  | .null l => l
  | .bool l _ => l
  | .num l _ => l
  | .str l _ => l
  | .arr l _ => l
  | .obj l _ => l

/-- The `jsonType` tag of a node, as the string used by `index.js`. -/
def JsonNode.jsonType : JsonNode → String
  | .null _ => "null"
  | .bool _ _ => "boolean"
  | .num _ _ => "number"
  | .str _ _ => "string"
  | .arr _ _ => "array"
  | .obj _ _ => "object"

/-- `.value` of a number node (0 for other nodes; the source only reads it
after a type guard or assertion). -/
def JsonNode.numValue : JsonNode → Rat
  | .num _ v => v
  | _ => 0

/-- The `.value` of a string node ("" for other nodes). -/
def JsonNode.strValue : JsonNode → String
  | .str _ v => v
  | _ => ""

/-- The `.value` of a boolean node (false for other nodes). -/
def JsonNode.boolValue : JsonNode → Bool
  | .bool _ v => v
  | _ => false

/-- The `.children` of an array node ([] for other nodes). -/
def JsonNode.arrChildren : JsonNode → List JsonNode
  | .arr _ cs => cs
  | _ => []

/-- The `.children` of an object node, as `(key, value)` pairs. -/
def JsonNode.objChildren : JsonNode → List (String × JsonNode)
  | .obj _ cs => cs
  | _ => []

/-- Modelled from the spec: `assert-type` of the tree utilities
(`assertNodeType` of `jsonast-util.js`): fails with `InvalidSchema` when the
node's shape mismatches. -/
def assertNodeType (node : JsonNode) (expected : String) : Except String Unit :=
  if node.jsonType = expected then .ok () else .error "Invalid Schema"

/-- Modelled from the spec: `object-has` of the tree utilities
(`jsonObjectHas`): whether an object node has a member with the given key. -/
def jsonObjectHas (key : String) (node : JsonNode) : Bool :=
  (node.objChildren).any (fun kv => kv.1 == key)

/-- Modelled from the spec: `object-keys` of the tree utilities
(`jsonObjectKeys`): the member keys of an object node, in document order. -/
def jsonObjectKeys (node : JsonNode) : List String :=
  (node.objChildren).map (fun kv => kv.1)

/-- Decimal digits of a natural number (helper for array-index segments). -/
def natToString (n : Nat) : String := toString n

/-- Decimal digit value of a character, if any. -/
def digitVal (c : Char) : Option Nat :=
  if c.isDigit then some (c.toNat - 48) else none

/-- Parse a decimal numeral from a character list (accumulator form). -/
def natFromDigits : List Char → Nat → Option Nat
  | [], acc => some acc
  | c :: rest, acc =>
      match digitVal c with
      | some d => natFromDigits rest (10 * acc + d)
      | none => none

/-- Parse a string as a decimal natural number (the JS array-index check),
structurally recursive so that concrete runs reduce in the kernel. -/
def strToNat? (s : String) : Option Nat :=
  match s.toList with
  | [] => none
  | cs => natFromDigits cs 0

/-- Modelled from the spec: `pointer-step` of the tree utilities
(`jsonPointerStep`): the value slot of the named member of an object node, or
of the indexed element of an array node. -/
def jsonPointerStep (key : String) (node : JsonNode) : Option JsonNode :=
  match node with
  | .obj _ children => (children.find? (fun kv => kv.1 == key)).map (fun kv => kv.2)
  | .arr _ children =>
      match strToNat? key with
      | some i => children[i]?
      | none => none
  | _ => none

/-- RFC 6901 escaping of one JSON Pointer segment (spec section 6.3):
tildes become `~0` and slashes become `~1`. -/
def pointerEscape (segment : String) : String :=
  String.join (segment.toList.map (fun c =>
    if c = '~' then "~0" else if c = '/' then "~1" else String.singleton c))

/-- One hexadecimal digit, uppercase. -/
def hexDigit (n : Nat) : String :=
  String.singleton ("0123456789ABCDEF".toList.getD n '0')

/-- Percent-encoding of one byte. -/
def byteToPercent (b : UInt8) : String :=
  "%" ++ hexDigit (b.toNat / 16) ++ hexDigit (b.toNat % 16)

/-- Characters that stay literal in a URI fragment (RFC 3986 fragment set). -/
def isFragmentSafe (c : Char) : Bool :=
  c.isAlphanum
    || ['-', '.', '_', '~', '!', '$', '&', '(', ')', '*', '+', ',', ';',
        '=', ':', '@', '/', '?'].contains c
    || c = Char.ofNat 39

/-- Modelled from the spec: percent-encoding of a pointer segment "for
URI-fragment safety" (spec sections 4.1 and 6.3): bytes outside the fragment
set become %HH. -/
def fragmentEncode (s : String) : String :=
  String.join (s.toList.map (fun c =>
    if isFragmentSafe c then String.singleton c
    else String.join (((String.singleton c).toUTF8.toList).map byteToPercent)))

/-- Modelled from the spec: the `append` primitive of the JSON Pointer
library: extend a location by one segment, RFC 6901 escaped and then
percent-encoded. -/
def pointerAppend (segment : String) (pointer : String) : String :=
  pointer ++ "/" ++ fragmentEncode (pointerEscape segment)

mutual
/-- Modelled from the spec: the node builder behind `toJsonNode`
(`build(raw, base-uri)` of spec section 4.1), at a given location. -/
def buildNode : Json → String → JsonNode
  | .null, loc => .null loc
  | .bool b, loc => .bool loc b
  | .num n, loc => .num loc n
  | .str s, loc => .str loc s
  | .arr es, loc => .arr loc (buildElements es loc 0)
  | .obj ms, loc => .obj loc (buildMembers ms loc)

/-- Children of an array node: element `i` lives at the parent location plus
the decimal index segment. -/
def buildElements : List Json → String → Nat → List JsonNode
  | [], _, _ => []
  | e :: rest, loc, i =>
      buildNode e (pointerAppend (natToString i) loc) :: buildElements rest loc (i + 1)

/-- Children of an object node: the member value lives at the parent location
plus the escaped key segment; document order is preserved. -/
def buildMembers : List (String × Json) → String → List (String × JsonNode)
  | [], _ => []
  | m :: rest, loc =>
      (m.1, buildNode m.2 (pointerAppend m.1 loc)) :: buildMembers rest loc
end

/-- Modelled from the spec: `toJsonNode(json, uri)` of `jsonast-util.js`: the
located tree rooted at `<uri>#`. -/
def toJsonNode (json : Json) (uri : String := "") : JsonNode :=
  buildNode json (uri ++ "#")

mutual
/-- Modelled from the spec: `jsonValue` of `jsonast-util.js`: strip the
locations off a located tree. -/
def jsonValue : JsonNode → Json
  | .null _ => .null
  | .bool _ b => .bool b
  | .num _ n => .num n
  | .str _ s => .str s
  | .arr _ cs => .arr (jsonValueList cs)
  | .obj _ ms => .obj (jsonValueMembers ms)

/-- `jsonValue` over array children. -/
def jsonValueList : List JsonNode → List Json
  | [] => []
  | c :: rest => jsonValue c :: jsonValueList rest

/-- `jsonValue` over object members. -/
def jsonValueMembers : List (String × JsonNode) → List (String × Json)
  | [] => []
  | m :: rest => (m.1, jsonValue m.2) :: jsonValueMembers rest
end

/-- Insert a serialized member into a key-sorted list (for canonicalization). -/
def insertSorted (kv : String × String) : List (String × String) → List (String × String)
  | [] => [kv]
  | h :: t => if kv.1 < h.1 then kv :: h :: t else h :: insertSorted kv t

/-- Sort serialized members by key (lexicographic), for canonicalization. -/
def sortPairs : List (String × String) → List (String × String)
  | [] => []
  | h :: t => insertSorted h (sortPairs t)

/-- Canonical rendering of a JSON number. -/
def ratSerialize (q : Rat) : String :=
  if q.den = 1 then toString q.num else toString q.num ++ "/" ++ toString q.den

mutual
/-- Modelled from the spec: the external `canonicalize` primitive
(`json-stringify-deterministic`): deterministic serialization with object keys
sorted lexicographically and no whitespace; used by `const`, `enum` and
`uniqueItems` only through equality of the produced strings. -/
def jsonStringify : Json → String
  | .null => "null"
  | .bool b => cond b "true" "false"
  | .num n => ratSerialize n
  | .str s => "\"" ++ s ++ "\""
  | .arr es => "[" ++ String.intercalate "," (jsonStringifyList es) ++ "]"
  | .obj ms =>
      "\x7b" ++
        String.intercalate ","
          ((sortPairs (jsonStringifyMembers ms)).map
            (fun kv => "\"" ++ kv.1 ++ "\":" ++ kv.2)) ++ "\x7d"

/-- `canonicalize` over array elements, in order. -/
def jsonStringifyList : List Json → List String
  | [] => []
  | e :: rest => jsonStringify e :: jsonStringifyList rest

/-- `canonicalize` over object members, before key sorting. -/
def jsonStringifyMembers : List (String × Json) → List (String × String)
  | [] => []
  | m :: rest => (m.1, jsonStringify m.2) :: jsonStringifyMembers rest
end

/-- The schema registry: a mapping from URI to registered root node
(`schemaRegistry` of `index.js`), modelled as an association list with the
JS `Map` set/delete semantics. -/
def Registry := List (String × JsonNode)

/-- `Map.get`: the value stored under a key, if any (first occurrence). -/
def getKV (key : String) : Registry → Option JsonNode :=
  fun r => (r.find? (fun kv => kv.1 == key)).map (fun kv => kv.2)

/-- `Map.set`: replace the entry in place when the key is present, append
otherwise. -/
def setKV (key : String) (value : JsonNode) : Registry → Registry
  | [] => [(key, value)]
  | kv :: rest =>
      if kv.1 == key then (key, value) :: rest else kv :: setKV key value rest

/-- `Map.delete`: remove the entry under a key. -/
def delKV (key : String) : Registry → Registry
  | [] => []
  | kv :: rest => if kv.1 == key then delKV key rest else kv :: delKV key rest

/-- A single apostrophe (U+0027), used in source error messages. -/
def apos : String := String.singleton (Char.ofNat 39)

/-- Modelled from the spec: `toAbsoluteIri` of the external URI library, as
used here: the reference without its fragment part. -/
def toAbsoluteIri (s : String) : String :=
  String.mk (s.toList.takeWhile (fun c => c ≠ '#'))

/-- Modelled from the spec: `resolveIri(ref, base)` of the external URI
library, minimally: fragment-only references resolve against the base,
everything else is taken as already absolute. -/
def resolveIri (ref : String) (base : String) : String :=
  if ref.startsWith "#" then toAbsoluteIri base ++ ref else ref

/-- Modelled from the spec: the `.fragment` of `parseIriReference`: the part
after the first number sign, if any. -/
def iriFragment (s : String) : Option String :=
  match s.splitOn "#" with
  | [] => none
  | [_] => none
  | _ :: rest => some (String.intercalate "#" rest)

/-- Value of a hexadecimal digit character. -/
def hexVal (c : Char) : Option Nat :=
  if c.isDigit then some (c.toNat - 48)
  else if 65 ≤ c.toNat ∧ c.toNat ≤ 70 then some (c.toNat - 55)
  else if 97 ≤ c.toNat ∧ c.toNat ≤ 102 then some (c.toNat - 87)
  else none

/-- Percent-decoding over a character list (ASCII %HH sequences). -/
def percentDecodeList : List Char → List Char
  | '%' :: a :: b :: rest =>
      match hexVal a, hexVal b with
      | some x, some y => Char.ofNat (16 * x + y) :: percentDecodeList rest
      | _, _ => '%' :: a :: b :: percentDecodeList rest
  | c :: rest => c :: percentDecodeList rest
  | [] => []

/-- Modelled from the spec: `decodeURI` applied to the reference fragment. -/
def decodeUriComponentLite (s : String) : String :=
  String.mk (percentDecodeList s.toList)

/-- RFC 6901 unescaping over a character list. -/
def pointerUnescapeList : List Char → List Char
  | '~' :: '1' :: rest => '/' :: pointerUnescapeList rest
  | '~' :: '0' :: rest => '~' :: pointerUnescapeList rest
  | c :: rest => c :: pointerUnescapeList rest
  | [] => []

/-- RFC 6901 unescaping of one pointer segment. -/
def pointerUnescape (segment : String) : String :=
  String.mk (pointerUnescapeList segment.toList)

/-- Modelled from the spec: the walking part of `pointer-get`: follow decoded
segments from a root node, failing with `InvalidReference` on a dangling
step. -/
def walkPointer : List String → JsonNode → Except String JsonNode
  | [], node => .ok node
  | seg :: rest, node =>
      match jsonPointerStep (pointerUnescape seg) node with
      | some child => walkPointer rest child
      | none => .error ("Invalid reference: " ++ seg)

/-- Modelled from the spec: `pointer-get(pointer, root, base-uri)`
(`jsonPointerGet` of `jsonast-util.js`). -/
def jsonPointerGet (pointer : String) (root : JsonNode) (_uri : String) :
    Except String JsonNode :=
  if pointer = "" then .ok root
  else
    match pointer.splitOn "/" with
    | "" :: segments => walkPointer segments root
    | segments => walkPointer segments root

/-- One entry of the failure trace (`OutputUnit` of `index.js`); the optional
`keywordLocation` and `error` fields are never produced by the core and are
omitted. -/
structure OutputUnit where
  absoluteKeywordLocation : String
  instanceLocation : String
deriving Repr, DecidableEq

/-- The result of `validate` (`Output` of `index.js`): `valid`, with the error
list present exactly on the invalid branch. -/
structure Output where
  valid : Bool
  errors : Option (List OutputUnit)
deriving Repr, DecidableEq

/-- `regexEscape` of `index.js`: make every regex metacharacter literal and
turn hyphens into \x2d. -/
def regexEscape (s : String) : String :=
  String.join (s.toList.map (fun c =>
    if ['|', '\\', '\x7b', '\x7d', '(', ')', '[', ']', '^', '$', '+', '*', '?', '.'].contains c
    then "\\" ++ String.singleton c
    else if c = '-' then "\\x2d" else String.singleton c))

/-- The float32-epsilon tolerance of `index.js` (the literal 1.19209290e-7),
as an exact rational. -/
def tolerance : Rat := 119209290 / 1000000000000000

/-- `numberEqual` of `index.js`: approximate equality under the tolerance. -/
def numberEqual (a b : Rat) : Bool := decide (|a - b| < tolerance)

/-- Truncation toward zero, the rounding used by the JS `%` operator. -/
def jsTrunc (q : Rat) : Int := if 0 ≤ q then q.floor else q.ceil

/-- The JS remainder operator `x % d` on finite numbers, modelled over exact
rationals: `x - d * trunc(x / d)` (the result has the sign of `x`). -/
def jsRem (x d : Rat) : Rat := x - d * (jsTrunc (x / d) : Int)

/-- `isTypeOf` of `index.js`: `"integer"` means an integral number, every
other type name is compared with the node's `jsonType`. -/
def isTypeOf (instance_ : JsonNode) (type_ : String) : Bool :=
  if type_ == "integer"
  then instance_.jsonType == "number" && instance_.numValue.den == 1
  else instance_.jsonType == type_

/-- The result of one validation step: validity plus the buffered errors. -/
abbrev VResult := Except String (Bool × List OutputUnit)

/-- The type of the recursive validator passed down to the handlers. -/
abbrev Recur := JsonNode → JsonNode → VResult

/-- The abstract ECMA regex engine (external primitive, spec section 6.2):
`test pattern input` is `new RegExp(pattern, "u").test(input)`. -/
abbrev RegexTest := String → String → Bool

/-- Validate a list of nodes, each against the same subschema, accumulating
validity (conjunction) and the buffered errors in order. -/
def validateEach (recur : Recur) (subschemaNode : JsonNode) :
    List JsonNode → VResult
  | [] => .ok (true, [])
  | n :: rest =>
      match recur subschemaNode n with
      | .error e => .error e
      | .ok r =>
          match validateEach recur subschemaNode rest with
          | .error e => .error e
          | .ok rr => .ok (r.1 && rr.1, r.2 ++ rr.2)

/-- `$ref` handler of `index.js`: resolve the reference URI, look it up in the
registry, walk the fragment pointer and recurse into the target. -/
def refHandler (recur : Recur) (reg : Registry)
    (refNode instanceNode : JsonNode) : VResult :=
  match refNode with
  | .str refLoc refValue =>
      let uri :=
        if refLoc.startsWith "#"
        then if refValue.startsWith "#" then "" else toAbsoluteIri refValue
        else toAbsoluteIri (resolveIri refValue (toAbsoluteIri refLoc))
      match getKV uri reg with
      | none => .error ("Invalid reference: " ++ uri)
      | some schemaNode => do
          let pointer := decodeUriComponentLite ((iriFragment refValue).getD "")
          let referencedSchemaNode ← jsonPointerGet pointer schemaNode uri
          recur referencedSchemaNode instanceNode
  | _ => .error "Invalid Schema"

/-- The keys of the sibling `properties` object, as collected by the
`additionalProperties` handler (empty when absent or not an object). -/
def propertiesKeys (schemaNode : JsonNode) : List String :=
  if jsonObjectHas "properties" schemaNode then
    match jsonPointerStep "properties" schemaNode with
    | some propertiesNode =>
        if propertiesNode.jsonType = "object" then jsonObjectKeys propertiesNode
        else []
    | none => []
  else []

/-- The raw patterns of the sibling `patternProperties` object, as collected
by the `additionalProperties` handler. -/
def patternPropertiesPatterns (schemaNode : JsonNode) : List String :=
  if jsonObjectHas "patternProperties" schemaNode then
    match jsonPointerStep "patternProperties" schemaNode with
    | some patternPropertiesNode =>
        if patternPropertiesNode.jsonType = "object"
        then jsonObjectKeys patternPropertiesNode
        else []
    | none => []
  else []

/-- The `propertyPatterns` list built by the `additionalProperties` handler:
each `properties` key anchored as `^<escaped>$`, then the raw
`patternProperties` patterns. -/
def collectPropertyPatterns (schemaNode : JsonNode) : List String :=
  (propertiesKeys schemaNode).map (fun k => "^" ++ regexEscape k ++ "$")
    ++ patternPropertiesPatterns schemaNode

/-- The `isDefinedProperty` regex of the `additionalProperties` handler: the
union of the collected patterns, or the never-matching `(?!)` when there are
none. -/
def isDefinedProperty (test : RegexTest) (patterns : List String)
    (propertyName : String) : Bool :=
  test (if patterns.length > 0 then String.intercalate "|" patterns else "(?!)")
    propertyName

/-- The instance members the `additionalProperties` handler recurses into:
exactly those whose name the union regex does not match (the loop guard of
`index.js` lines 164-169). -/
def additionalPropertiesTargets (test : RegexTest)
    (schemaNode instanceNode : JsonNode) : List (String × JsonNode) :=
  instanceNode.objChildren.filter
    (fun kv => !isDefinedProperty test (collectPropertyPatterns schemaNode) kv.1)

/-- `additionalProperties` handler of `index.js`. -/
def additionalPropertiesHandler (recur : Recur) (test : RegexTest)
    (additionalPropertiesNode instanceNode schemaNode : JsonNode) : VResult :=
  if instanceNode.jsonType ≠ "object" then .ok (true, [])
  else
    validateEach recur additionalPropertiesNode
      ((additionalPropertiesTargets test schemaNode instanceNode).map (fun kv => kv.2))

/-- The loop of the `allOf` handler: every member schema is applied to the
instance; validity is the conjunction and errors accumulate in order. -/
def allOfLoop (recur : Recur) (instanceNode : JsonNode) :
    List JsonNode → VResult
  | [] => .ok (true, [])
  | s :: rest =>
      match recur s instanceNode with
      | .error e => .error e
      | .ok r =>
          match allOfLoop recur instanceNode rest with
          | .error e => .error e
          | .ok rr => .ok (r.1 && rr.1, r.2 ++ rr.2)

/-- `allOf` handler of `index.js`. -/
def allOfHandler (recur : Recur) (allOfNode instanceNode : JsonNode) : VResult := do
  let _ ← assertNodeType allOfNode "array"
  allOfLoop recur instanceNode allOfNode.arrChildren

/-- The loop of the `anyOf` handler: every member schema is applied (no
short-circuit); validity is the disjunction and errors accumulate from every
attempt, in member order. -/
def anyOfLoop (recur : Recur) (instanceNode : JsonNode) :
    List JsonNode → VResult
  | [] => .ok (false, [])
  | s :: rest =>
      match recur s instanceNode with
      | .error e => .error e
      | .ok r =>
          match anyOfLoop recur instanceNode rest with
          | .error e => .error e
          | .ok rr => .ok (r.1 || rr.1, r.2 ++ rr.2)

/-- `anyOf` handler of `index.js`. -/
def anyOfHandler (recur : Recur) (anyOfNode instanceNode : JsonNode) : VResult := do
  let _ ← assertNodeType anyOfNode "array"
  anyOfLoop recur instanceNode anyOfNode.arrChildren

/-- The loop of the `oneOf` handler: count the members that validate the
instance, accumulating errors from every attempt. -/
def oneOfLoop (recur : Recur) (instanceNode : JsonNode) :
    List JsonNode → Except String (Nat × List OutputUnit)
  | [] => .ok (0, [])
  | s :: rest =>
      match recur s instanceNode with
      | .error e => .error e
      | .ok r =>
          match oneOfLoop recur instanceNode rest with
          | .error e => .error e
          | .ok rr => .ok ((if r.1 then rr.1 + 1 else rr.1), r.2 ++ rr.2)

/-- `oneOf` handler of `index.js`: exactly one member must pass. -/
def oneOfHandler (recur : Recur) (oneOfNode instanceNode : JsonNode) : VResult := do
  let _ ← assertNodeType oneOfNode "array"
  let (matchCount, es) ← oneOfLoop recur instanceNode oneOfNode.arrChildren
  .ok (matchCount == 1, es)

/-- `not` handler of `index.js`: recurse with a throwaway buffer and negate. -/
def notHandler (recur : Recur) (notNode instanceNode : JsonNode) : VResult := do
  let (b, _) ← recur notNode instanceNode
  .ok (!b, [])

/-- The loop of the `contains` handler: count the elements that the subschema
accepts, with a shared error buffer. -/
def containsLoop (recur : Recur) (containsNode : JsonNode) :
    List JsonNode → Except String (Nat × List OutputUnit)
  | [] => .ok (0, [])
  | item :: rest =>
      match recur containsNode item with
      | .error e => .error e
      | .ok r =>
          match containsLoop recur containsNode rest with
          | .error e => .error e
          | .ok rr => .ok ((if r.1 then rr.1 + 1 else rr.1), r.2 ++ rr.2)

/-- `contains` handler of `index.js`: the match count must lie between the
sibling `minContains` (default 1) and `maxContains` (default
`Number.MAX_SAFE_INTEGER`). -/
def containsHandler (recur : Recur)
    (containsNode instanceNode schemaNode : JsonNode) : VResult :=
  if instanceNode.jsonType ≠ "array" then .ok (true, [])
  else
    let minContains : Rat :=
      if jsonObjectHas "minContains" schemaNode then
        match jsonPointerStep "minContains" schemaNode with
        | some n => if n.jsonType = "number" then n.numValue else 1
        | none => 1
      else 1
    let maxContains : Rat :=
      if jsonObjectHas "maxContains" schemaNode then
        match jsonPointerStep "maxContains" schemaNode with
        | some n => if n.jsonType = "number" then n.numValue else 9007199254740991
        | none => 9007199254740991
      else 9007199254740991
    do
      let (matchCount, es) ← containsLoop recur containsNode instanceNode.arrChildren
      .ok (decide (minContains ≤ (matchCount : Rat)) && decide ((matchCount : Rat) ≤ maxContains), es)

/-- The loop of the `dependentSchemas` handler: every keyword member whose key
is present in the instance applies its subschema to the instance. -/
def dependentSchemasLoop (recur : Recur) (instanceNode : JsonNode) :
    List (String × JsonNode) → VResult
  | [] => .ok (true, [])
  | kv :: rest =>
      if jsonObjectHas kv.1 instanceNode then
        match recur kv.2 instanceNode with
        | .error e => .error e
        | .ok r =>
            match dependentSchemasLoop recur instanceNode rest with
            | .error e => .error e
            | .ok rr => .ok (r.1 && rr.1, r.2 ++ rr.2)
      else dependentSchemasLoop recur instanceNode rest

/-- `dependentSchemas` handler of `index.js`. -/
def dependentSchemasHandler (recur : Recur)
    (dependentSchemasNode instanceNode : JsonNode) : VResult :=
  if instanceNode.jsonType ≠ "object" then .ok (true, [])
  else do
    let _ ← assertNodeType dependentSchemasNode "object"
    dependentSchemasLoop recur instanceNode dependentSchemasNode.objChildren

/-- `then` handler of `index.js`: applies only when the sibling `if` passes
(evaluated with a throwaway buffer). -/
def thenHandler (recur : Recur)
    (thenNode instanceNode schemaNode : JsonNode) : VResult :=
  if jsonObjectHas "if" schemaNode then
    match jsonPointerStep "if" schemaNode with
    | some ifNode => do
        let (b, _) ← recur ifNode instanceNode
        if b then recur thenNode instanceNode else .ok (true, [])
    | none => .ok (true, [])
  else .ok (true, [])

/-- `else` handler of `index.js`: applies only when the sibling `if` fails
(evaluated with a throwaway buffer). -/
def elseHandler (recur : Recur)
    (elseNode instanceNode schemaNode : JsonNode) : VResult :=
  if jsonObjectHas "if" schemaNode then
    match jsonPointerStep "if" schemaNode with
    | some ifNode => do
        let (b, _) ← recur ifNode instanceNode
        if !b then recur elseNode instanceNode else .ok (true, [])
    | none => .ok (true, [])
  else .ok (true, [])

/-- The `numberOfPrefixItems` computation of the `items` handler: the length
of the sibling `prefixItems` array (0 when absent or not an array). -/
def numberOfPrefixItems (schemaNode : JsonNode) : Nat :=
  if jsonObjectHas "prefixItems" schemaNode then
    match jsonPointerStep "prefixItems" schemaNode with
    | some prefixItemsNode =>
        if prefixItemsNode.jsonType = "array"
        then prefixItemsNode.arrChildren.length
        else 0
    | none => 0
  else 0

/-- The elements the `items` handler recurses into:
`instanceNode.children.slice(numberOfPrefixItems)`. -/
def itemsApplied (schemaNode instanceNode : JsonNode) : List JsonNode :=
  instanceNode.arrChildren.drop (numberOfPrefixItems schemaNode)

/-- `items` handler of `index.js`. -/
def itemsHandler (recur : Recur)
    (itemsNode instanceNode schemaNode : JsonNode) : VResult :=
  if instanceNode.jsonType ≠ "array" then .ok (true, [])
  else validateEach recur itemsNode (itemsApplied schemaNode instanceNode)

/-- Inner loop of the `patternProperties` handler: one pattern applied to
every instance member whose name it matches. -/
def patternPropertiesInner (recur : Recur) (test : RegexTest)
    (pattern : String) (patternSchemaNode : JsonNode) :
    List (String × JsonNode) → VResult
  | [] => .ok (true, [])
  | kv :: rest =>
      if test pattern kv.1 then
        match recur patternSchemaNode kv.2 with
        | .error e => .error e
        | .ok r =>
            match patternPropertiesInner recur test pattern patternSchemaNode rest with
            | .error e => .error e
            | .ok rr => .ok (r.1 && rr.1, r.2 ++ rr.2)
      else patternPropertiesInner recur test pattern patternSchemaNode rest

/-- Outer loop of the `patternProperties` handler, over the pattern/subschema
pairs in document order. -/
def patternPropertiesOuter (recur : Recur) (test : RegexTest)
    (instanceChildren : List (String × JsonNode)) :
    List (String × JsonNode) → VResult
  | [] => .ok (true, [])
  | kv :: rest =>
      match patternPropertiesInner recur test kv.1 kv.2 instanceChildren with
      | .error e => .error e
      | .ok r =>
          match patternPropertiesOuter recur test instanceChildren rest with
          | .error e => .error e
          | .ok rr => .ok (r.1 && rr.1, r.2 ++ rr.2)

/-- `patternProperties` handler of `index.js`. -/
def patternPropertiesHandler (recur : Recur) (test : RegexTest)
    (patternPropertiesNode instanceNode : JsonNode) : VResult :=
  if instanceNode.jsonType ≠ "object" then .ok (true, [])
  else do
    let _ ← assertNodeType patternPropertiesNode "object"
    patternPropertiesOuter recur test instanceNode.objChildren
      patternPropertiesNode.objChildren

/-- The index/schema pairs the `prefixItems` handler recurses into: element
`i` against `prefixItems[i]`, for every index below both lengths (the loop of
`index.js` lines 347-351). -/
def prefixItemsApplied (prefixItemsNode instanceNode : JsonNode) :
    List (JsonNode × JsonNode) :=
  prefixItemsNode.arrChildren.zip instanceNode.arrChildren

/-- Loop of the `prefixItems` handler over the paired subschema/element
list. -/
def prefixItemsLoop (recur : Recur) : List (JsonNode × JsonNode) → VResult
  | [] => .ok (true, [])
  | p :: rest =>
      match recur p.1 p.2 with
      | .error e => .error e
      | .ok r =>
          match prefixItemsLoop recur rest with
          | .error e => .error e
          | .ok rr => .ok (r.1 && rr.1, r.2 ++ rr.2)

/-- `prefixItems` handler of `index.js`. -/
def prefixItemsHandler (recur : Recur)
    (prefixItemsNode instanceNode : JsonNode) : VResult :=
  if instanceNode.jsonType ≠ "array" then .ok (true, [])
  else do
    let _ ← assertNodeType prefixItemsNode "array"
    prefixItemsLoop recur (prefixItemsApplied prefixItemsNode instanceNode)

/-- Loop of the `properties` handler, over the instance members: members
whose key exists in `properties` are validated against that subschema. -/
def propertiesLoop (recur : Recur) (propertiesNode : JsonNode) :
    List (String × JsonNode) → VResult
  | [] => .ok (true, [])
  | kv :: rest =>
      if jsonObjectHas kv.1 propertiesNode then
        match jsonPointerStep kv.1 propertiesNode with
        | some schemaPropertyNode =>
            match recur schemaPropertyNode kv.2 with
            | .error e => .error e
            | .ok r =>
                match propertiesLoop recur propertiesNode rest with
                | .error e => .error e
                | .ok rr => .ok (r.1 && rr.1, r.2 ++ rr.2)
        | none => propertiesLoop recur propertiesNode rest
      else propertiesLoop recur propertiesNode rest

/-- `properties` handler of `index.js`. -/
def propertiesHandler (recur : Recur)
    (propertiesNode instanceNode : JsonNode) : VResult :=
  if instanceNode.jsonType ≠ "object" then .ok (true, [])
  else do
    let _ ← assertNodeType propertiesNode "object"
    propertiesLoop recur propertiesNode instanceNode.objChildren

/-- `propertyNames` handler of `index.js`: every member key is wrapped as a
string node located at the instance location extended by the key segment, and
validated against the subschema. -/
def propertyNamesHandler (recur : Recur)
    (propertyNamesNode instanceNode : JsonNode) : VResult :=
  if instanceNode.jsonType ≠ "object" then .ok (true, [])
  else
    validateEach recur propertyNamesNode
      (instanceNode.objChildren.map (fun kv =>
        JsonNode.str (pointerAppend kv.1 instanceNode.location) kv.1))

/-- `const` handler of `index.js`: canonical JSON equality. -/
def constHandler (constNode instanceNode : JsonNode) : VResult :=
  .ok (jsonStringify (jsonValue instanceNode) == jsonStringify (jsonValue constNode), [])

/-- `dependentRequired` handler of `index.js`: for every keyword member whose
key is present in the instance, every listed property must be present; a
single keyword-level failure, no child errors. -/
def dependentRequiredHandler (dependentRequiredNode instanceNode : JsonNode) : VResult :=
  if instanceNode.jsonType ≠ "object" then .ok (true, [])
  else do
    let _ ← assertNodeType dependentRequiredNode "object"
    let b ← dependentRequiredNode.objChildren.allM (fun kv =>
      if !jsonObjectHas kv.1 instanceNode then pure true
      else do
        let _ ← assertNodeType kv.2 "array"
        kv.2.arrChildren.allM (fun requiredPropertyNode => do
          let _ ← assertNodeType requiredPropertyNode "string"
          pure (jsonObjectHas requiredPropertyNode.strValue instanceNode)))
    .ok (b, [])

/-- `enum` handler of `index.js`: canonical equality with some element. -/
def enumHandler (enumNode instanceNode : JsonNode) : VResult := do
  let _ ← assertNodeType enumNode "array"
  let instanceValue := jsonStringify (jsonValue instanceNode)
  .ok (enumNode.arrChildren.any (fun enumItemNode =>
    jsonStringify (jsonValue enumItemNode) == instanceValue), [])

/-- `exclusiveMaximum` handler of `index.js`. -/
def exclusiveMaximumHandler (exclusiveMaximumNode instanceNode : JsonNode) : VResult :=
  if instanceNode.jsonType ≠ "number" then .ok (true, [])
  else do
    let _ ← assertNodeType exclusiveMaximumNode "number"
    .ok (decide (instanceNode.numValue < exclusiveMaximumNode.numValue), [])

/-- `exclusiveMinimum` handler of `index.js`. -/
def exclusiveMinimumHandler (exclusiveMinimumNode instanceNode : JsonNode) : VResult :=
  if instanceNode.jsonType ≠ "number" then .ok (true, [])
  else do
    let _ ← assertNodeType exclusiveMinimumNode "number"
    .ok (decide (instanceNode.numValue > exclusiveMinimumNode.numValue), [])

/-- `maxItems` handler of `index.js`. -/
def maxItemsHandler (maxItemsNode instanceNode : JsonNode) : VResult :=
  if instanceNode.jsonType ≠ "array" then .ok (true, [])
  else do
    let _ ← assertNodeType maxItemsNode "number"
    .ok (decide ((instanceNode.arrChildren.length : Rat) ≤ maxItemsNode.numValue), [])

/-- `minItems` handler of `index.js`. -/
def minItemsHandler (minItemsNode instanceNode : JsonNode) : VResult :=
  if instanceNode.jsonType ≠ "array" then .ok (true, [])
  else do
    let _ ← assertNodeType minItemsNode "number"
    .ok (decide ((instanceNode.arrChildren.length : Rat) ≥ minItemsNode.numValue), [])

/-- `maxLength` handler of `index.js` (length in Unicode code points). -/
def maxLengthHandler (maxLengthNode instanceNode : JsonNode) : VResult :=
  if instanceNode.jsonType ≠ "string" then .ok (true, [])
  else do
    let _ ← assertNodeType maxLengthNode "number"
    .ok (decide ((instanceNode.strValue.length : Rat) ≤ maxLengthNode.numValue), [])

/-- `minLength` handler of `index.js` (length in Unicode code points). -/
def minLengthHandler (minLengthNode instanceNode : JsonNode) : VResult :=
  if instanceNode.jsonType ≠ "string" then .ok (true, [])
  else do
    let _ ← assertNodeType minLengthNode "number"
    .ok (decide ((instanceNode.strValue.length : Rat) ≥ minLengthNode.numValue), [])

/-- `maxProperties` handler of `index.js`. -/
def maxPropertiesHandler (maxPropertiesNode instanceNode : JsonNode) : VResult :=
  if instanceNode.jsonType ≠ "object" then .ok (true, [])
  else do
    let _ ← assertNodeType maxPropertiesNode "number"
    .ok (decide ((instanceNode.objChildren.length : Rat) ≤ maxPropertiesNode.numValue), [])

/-- `minProperties` handler of `index.js`. -/
def minPropertiesHandler (minPropertiesNode instanceNode : JsonNode) : VResult :=
  if instanceNode.jsonType ≠ "object" then .ok (true, [])
  else do
    let _ ← assertNodeType minPropertiesNode "number"
    .ok (decide ((instanceNode.objChildren.length : Rat) ≥ minPropertiesNode.numValue), [])

/-- `maximum` handler of `index.js` (inclusive). -/
def maximumHandler (maximumNode instanceNode : JsonNode) : VResult :=
  if instanceNode.jsonType ≠ "number" then .ok (true, [])
  else do
    let _ ← assertNodeType maximumNode "number"
    .ok (decide (instanceNode.numValue ≤ maximumNode.numValue), [])

/-- `minimum` handler of `index.js` (inclusive). -/
def minimumHandler (minimumNode instanceNode : JsonNode) : VResult :=
  if instanceNode.jsonType ≠ "number" then .ok (true, [])
  else do
    let _ ← assertNodeType minimumNode "number"
    .ok (decide (instanceNode.numValue ≥ minimumNode.numValue), [])

/-- `multipleOf` handler of `index.js`: the remainder is approximately 0 or
approximately the divisor. -/
def multipleOfHandler (multipleOfNode instanceNode : JsonNode) : VResult :=
  if instanceNode.jsonType ≠ "number" then .ok (true, [])
  else do
    let _ ← assertNodeType multipleOfNode "number"
    let remainder := jsRem instanceNode.numValue multipleOfNode.numValue
    .ok (numberEqual 0 remainder || numberEqual multipleOfNode.numValue remainder, [])

/-- `pattern` handler of `index.js`: Unicode regex test, no implied anchors. -/
def patternHandler (test : RegexTest) (patternNode instanceNode : JsonNode) : VResult :=
  if instanceNode.jsonType ≠ "string" then .ok (true, [])
  else do
    let _ ← assertNodeType patternNode "string"
    .ok (test patternNode.strValue instanceNode.strValue, [])

/-- `required` handler of `index.js`: every listed key must be present
(short-circuits at the first missing one). -/
def requiredHandler (requiredNode instanceNode : JsonNode) : VResult :=
  if instanceNode.jsonType ≠ "object" then .ok (true, [])
  else do
    let _ ← assertNodeType requiredNode "array"
    let b ← requiredNode.arrChildren.allM (fun requiredPropertyNode => do
      let _ ← assertNodeType requiredPropertyNode "string"
      pure (jsonObjectHas requiredPropertyNode.strValue instanceNode))
    .ok (b, [])

/-- `type` handler of `index.js`: a single type name or a union of them. -/
def typeHandler (typeNode instanceNode : JsonNode) : VResult :=
  match typeNode with
  | .str _ t => .ok (isTypeOf instanceNode t, [])
  | .arr _ itemNodes => do
      let b ← itemNodes.anyM (fun itemNode => do
        let _ ← assertNodeType itemNode "string"
        pure (isTypeOf instanceNode itemNode.strValue))
      .ok (b, [])
  | _ => .error "Invalid Schema"

/-- `uniqueItems` handler of `index.js`: canonical-equality uniqueness. -/
def uniqueItemsHandler (uniqueItemsNode instanceNode : JsonNode) : VResult :=
  if instanceNode.jsonType ≠ "array" then .ok (true, [])
  else do
    let _ ← assertNodeType uniqueItemsNode "boolean"
    if uniqueItemsNode.boolValue = false then .ok (true, [])
    else
      let normalizedItems := instanceNode.arrChildren.map
        (fun itemNode => jsonStringify (jsonValue itemNode))
      .ok (normalizedItems.eraseDups.length == normalizedItems.length, [])

/-- `String.prototype.endsWith`, via character lists so that concrete runs
reduce in the kernel. -/
def strEndsWith (s suffix : String) : Bool :=
  suffix.toList.isSuffixOf s.toList

/-- `$id` handler of `index.js`: legal only at the document root (location
ending in `#/$id`); an embedded `$id` throws when (and only when) the object
schema containing it is applied to an instance. -/
def idHandler (idNode _instanceNode schemaNode : JsonNode) : VResult :=
  if !(strEndsWith idNode.location "#/$id") then
    .error ("Embedded schemas are not supported. Found at " ++ schemaNode.location)
  else .ok (true, [])

/-- The diagnostic of the unconditionally rejected keywords (`$anchor`,
`$dynamicAnchor`, `$dynamicRef`, `unevaluatedProperties`,
`unevaluatedItems`). -/
def unsupportedKeywordMsg (keyword location : String) : String :=
  "The " ++ apos ++ keyword ++ apos ++ " keyword is not supported. Found at " ++ location

/-- The handler table of `index.js` (`keywordHandlers`): the handler
registered for a keyword, given the recursive validator, the regex engine and
the registry; `none` for unknown keywords, which the dispatcher ignores. -/
def keywordHandlers (recur : Recur) (test : RegexTest) (reg : Registry) :
    String → Option (JsonNode → JsonNode → JsonNode → VResult)
  | "$ref" => some (fun v inst _s => refHandler recur reg v inst)
  | "additionalProperties" =>
      some (fun v inst s => additionalPropertiesHandler recur test v inst s)
  | "allOf" => some (fun v inst _s => allOfHandler recur v inst)
  | "anyOf" => some (fun v inst _s => anyOfHandler recur v inst)
  | "oneOf" => some (fun v inst _s => oneOfHandler recur v inst)
  | "not" => some (fun v inst _s => notHandler recur v inst)
  | "contains" => some (fun v inst s => containsHandler recur v inst s)
  | "dependentSchemas" => some (fun v inst _s => dependentSchemasHandler recur v inst)
  | "then" => some (fun v inst s => thenHandler recur v inst s)
  | "else" => some (fun v inst s => elseHandler recur v inst s)
  | "items" => some (fun v inst s => itemsHandler recur v inst s)
  | "patternProperties" =>
      some (fun v inst _s => patternPropertiesHandler recur test v inst)
  | "prefixItems" => some (fun v inst _s => prefixItemsHandler recur v inst)
  | "properties" => some (fun v inst _s => propertiesHandler recur v inst)
  | "propertyNames" => some (fun v inst _s => propertyNamesHandler recur v inst)
  | "const" => some (fun v inst _s => constHandler v inst)
  | "dependentRequired" => some (fun v inst _s => dependentRequiredHandler v inst)
  | "enum" => some (fun v inst _s => enumHandler v inst)
  | "exclusiveMaximum" => some (fun v inst _s => exclusiveMaximumHandler v inst)
  | "exclusiveMinimum" => some (fun v inst _s => exclusiveMinimumHandler v inst)
  | "maxItems" => some (fun v inst _s => maxItemsHandler v inst)
  | "minItems" => some (fun v inst _s => minItemsHandler v inst)
  | "maxLength" => some (fun v inst _s => maxLengthHandler v inst)
  | "minLength" => some (fun v inst _s => minLengthHandler v inst)
  | "maxProperties" => some (fun v inst _s => maxPropertiesHandler v inst)
  | "minProperties" => some (fun v inst _s => minPropertiesHandler v inst)
  | "maximum" => some (fun v inst _s => maximumHandler v inst)
  | "minimum" => some (fun v inst _s => minimumHandler v inst)
  | "multipleOf" => some (fun v inst _s => multipleOfHandler v inst)
  | "pattern" => some (fun v inst _s => patternHandler test v inst)
  | "required" => some (fun v inst _s => requiredHandler v inst)
  | "type" => some (fun v inst _s => typeHandler v inst)
  | "uniqueItems" => some (fun v inst _s => uniqueItemsHandler v inst)
  | "$id" => some (fun v inst s => idHandler v inst s)
  | "$anchor" =>
      some (fun v _inst _s => .error (unsupportedKeywordMsg "$anchor" v.location))
  | "$dynamicAnchor" =>
      some (fun v _inst _s => .error (unsupportedKeywordMsg "$dynamicAnchor" v.location))
  | "$dynamicRef" =>
      some (fun v _inst _s => .error (unsupportedKeywordMsg "$dynamicRef" v.location))
  | "unevaluatedProperties" =>
      some (fun v _inst _s =>
        .error (unsupportedKeywordMsg "unevaluatedProperties" v.location))
  | "unevaluatedItems" =>
      some (fun v _inst _s =>
        .error (unsupportedKeywordMsg "unevaluatedItems" v.location))
  | _ => none

/-- The keyword dispatch loop of `validateSchema` (`index.js` lines 74-93):
iterate the schema object's members in document order; for a recognized
keyword run its handler with a fresh buffer; on failure append one
OutputUnit for the keyword (the keyword value node's location and the
instance node's location) followed by the handler's buffered errors. -/
def dispatchKeywords (recur : Recur) (test : RegexTest) (reg : Registry)
    (schemaNode instanceNode : JsonNode) :
    List (String × JsonNode) → VResult
  | [] => .ok (true, [])
  | kv :: rest =>
      match keywordHandlers recur test reg kv.1 with
      | none => dispatchKeywords recur test reg schemaNode instanceNode rest
      | some keywordHandler =>
          match keywordHandler kv.2 instanceNode schemaNode with
          | .error e => .error e
          | .ok kr =>
              match dispatchKeywords recur test reg schemaNode instanceNode rest with
              | .error e => .error e
              | .ok restR =>
                  .ok (kr.1 && restR.1,
                    (if kr.1 then []
                     else { absoluteKeywordLocation := kv.2.location,
                            instanceLocation := instanceNode.location } :: kr.2)
                      ++ restR.2)

/-- `validateSchema` of `index.js`: boolean schemas decide immediately (a
`false` schema contributes one OutputUnit at its own location), object
schemas dispatch their keywords, anything else is an invalid schema.  The
fuel argument models the JS call stack; exhaustion plays the role of the
thrown `RangeError`. -/
def validateSchema : Nat → RegexTest → Registry → JsonNode → JsonNode → VResult
  | 0, _, _, _, _ => .error "Maximum call stack size exceeded"
  | fuel + 1, test, reg, schemaNode, instanceNode =>
      match schemaNode with
      | .bool loc value =>
          if value then .ok (true, [])
          else .ok (false, [{ absoluteKeywordLocation := loc,
                              instanceLocation := instanceNode.location }])
      | .obj _ children =>
          dispatchKeywords (validateSchema fuel test reg) test reg
            schemaNode instanceNode children
      | _ => .error "Invalid Schema"

/-- `registerSchema` of `index.js`: build the located tree rooted at the URI
and store it. -/
def registerSchema (reg : Registry) (schema : Json) (uri : String) : Registry :=
  setKV uri (toJsonNode schema uri) reg

/-- The URI `validate` derives for its schema argument: the top-level string
`$id` of an object schema, otherwise the empty string. -/
def deriveUri (schema : Json) : String :=
  match schema with
  | .obj members =>
      match (members.find? (fun kv => kv.1 == "$id")).map (fun kv => kv.2) with
      | some (Json.str s) => s
      | _ => ""
  | _ => ""

/-- The accepted `$schema` URI. -/
def supportedDialect : String := "https://json-schema.org/draft/2020-12/schema"

/-- The `UnsupportedDialect` diagnostic of `validate`. -/
def dialectMsg (dialect : String) : String :=
  "Dialect " ++ apos ++ dialect ++ apos ++ " is not supported. Use 2020-12."

/-- The dialect verification of `validate` (`index.js` lines 44-50): only a
*string-valued* `$schema` differing from the 2020-12 meta-schema URI is
rejected. -/
def dialectCheck (schemaNode : JsonNode) : Except String Unit :=
  if schemaNode.jsonType = "object" ∧ jsonObjectHas "$schema" schemaNode then
    match jsonPointerStep "$schema" schemaNode with
    | some dialectNode =>
        if dialectNode.jsonType = "string" ∧ dialectNode.strValue ≠ supportedDialect
        then .error (dialectMsg dialectNode.strValue)
        else .ok ()
    | none => .ok ()
  else .ok ()

/-- `validate` of `index.js`: derive the URI, register the schema, verify the
dialect, evaluate, unregister, and report.  The returned pair carries the
result (`Except` models thrown schema errors) together with the registry
state after the call; on a thrown error the `delete` on line 56 is never
reached, so the registry keeps the inserted entry. -/
def validate (fuel : Nat) (test : RegexTest) (reg : Registry)
    (schema instance_ : Json) : Except String Output × Registry :=
  let uri := deriveUri schema
  let reg1 := registerSchema reg schema uri
  let schemaNode := (getKV uri reg1).getD (JsonNode.null "")
  match dialectCheck schemaNode with
  | .error e => (.error e, reg1)
  | .ok _ =>
      match validateSchema fuel test reg1 schemaNode (toJsonNode instance_) with
      | .error e => (.error e, reg1)
      | .ok (valid, errors) =>
          ((if valid then .ok { valid := true, errors := none }
            else .ok { valid := false, errors := some errors }), delKV uri reg1)

/-- The contribution of one schema member to the dispatcher's outcome: `ok`
with no errors for an unknown keyword; otherwise the handler's verdict, with
the keyword-level OutputUnit prepended to the handler's buffer on failure. -/
def keywordBlock (recur : Recur) (test : RegexTest) (reg : Registry)
    (schemaNode instanceNode : JsonNode) (kv : String × JsonNode) : VResult :=
  match keywordHandlers recur test reg kv.1 with
  | none => .ok (true, [])
  | some keywordHandler =>
      (keywordHandler kv.2 instanceNode schemaNode).map (fun r =>
        (r.1, if r.1 then []
              else { absoluteKeywordLocation := kv.2.location,
                     instanceLocation := instanceNode.location } :: r.2))

/-- The per-keyword outcomes of a schema object's members, in document order
(errors if some handler throws). -/
def keywordBlocks (recur : Recur) (test : RegexTest) (reg : Registry)
    (schemaNode instanceNode : JsonNode) :
    List (String × JsonNode) → Except String (List (Bool × List OutputUnit))
  | [] => .ok []
  | kv :: rest =>
      match keywordBlock recur test reg schemaNode instanceNode kv with
      | .error e => .error e
      | .ok r =>
          match keywordBlocks recur test reg schemaNode instanceNode rest with
          | .error e => .error e
          | .ok rs => .ok (r :: rs)

/-- The outcomes of recursing one instance into each schema of a list (the
member results of `anyOf`/`allOf`-style handlers). -/
def recurEach (recur : Recur) (instanceNode : JsonNode) :
    List JsonNode → Except String (List (Bool × List OutputUnit))
  | [] => .ok []
  | s :: rest =>
      match recur s instanceNode with
      | .error e => .error e
      | .ok r =>
          match recurEach recur instanceNode rest with
          | .error e => .error e
          | .ok rs => .ok (r :: rs)

/-- Whether a `validate` outcome is a normal return (no thrown schema
error). -/
def isOkResult : Except String Output → Bool
  | .ok _ => true
  | .error _ => false

theorem buildNode_location (j : Json) (loc : String) :
    (buildNode j loc).location = loc := by
  cases j <;> rfl

theorem getKV_setKV_self (k : String) (v : JsonNode) (r : Registry) :
    getKV k (setKV k v r) = some v := by
  induction r with
  | nil => simp [getKV, setKV]
  | cons kv rest ih =>
      by_cases h : kv.1 = k
      · simp [getKV, setKV, h]
      · simpa [getKV, setKV, h] using ih

theorem getKV_setKV_ne (k' k : String) (v : JsonNode) (r : Registry)
    (h : k' ≠ k) : getKV k' (setKV k v r) = getKV k' r := by
  induction r with
  | nil => simp [getKV, setKV, Ne.symm h]
  | cons kv rest ih =>
      rcases kv with ⟨a, b⟩
      by_cases hk : a = k
      · subst hk
        simp [getKV, setKV, Ne.symm h]
      · by_cases hk' : a = k'
        · subst hk'
          simp [getKV, setKV, hk]
        · simpa [getKV, setKV, hk, hk'] using ih

theorem getKV_delKV_ne (k' k : String) (r : Registry) (h : k' ≠ k) :
    getKV k' (delKV k r) = getKV k' r := by
  induction r with
  | nil => simp [getKV, delKV]
  | cons kv rest ih =>
      rcases kv with ⟨a, b⟩
      by_cases hk : a = k
      · subst hk
        simpa [getKV, delKV, Ne.symm h] using ih
      · by_cases hk' : a = k'
        · subst hk'
          simp [getKV, delKV, hk]
        · simpa [getKV, delKV, hk, hk'] using ih

theorem delKV_setKV (k : String) (v : JsonNode) (r : Registry) :
    delKV k (setKV k v r) = delKV k r := by
  induction r with
  | nil => simp [setKV, delKV]
  | cons kv rest ih =>
      by_cases hk : kv.1 = k
      · simp [setKV, delKV, hk]
      · simp [setKV, delKV, hk, ih]

/-- C7: validating the boolean schema `true` accepts every instance with
`{valid: true}`; the boolean schema `false` rejects every instance with
`{valid: false}` and exactly one OutputUnit whose `absoluteKeywordLocation`
and `instanceLocation` are both `"#"`. -/
theorem c7_boolean_schemas (fuel : Nat) (test : RegexTest) (reg : Registry)
    (inst : Json) :
    (validate (fuel + 1) test reg (Json.bool true) inst).1
      = .ok { valid := true, errors := none }
    ∧ (validate (fuel + 1) test reg (Json.bool false) inst).1
      = .ok { valid := false,
              errors := some [{ absoluteKeywordLocation := "#",
                                instanceLocation := "#" }] } := by
  constructor
  · simp [validate, registerSchema, deriveUri, getKV_setKV_self, toJsonNode,
      buildNode, dialectCheck, JsonNode.jsonType, validateSchema]
  · simp [validate, registerSchema, deriveUri, getKV_setKV_self, toJsonNode,
      buildNode, dialectCheck, JsonNode.jsonType, validateSchema,
      buildNode_location]

theorem jsonObjectHas_of_step {key : String} {node x : JsonNode}
    (h : jsonPointerStep key node = some x) (hnat : strToNat? key = none) :
    jsonObjectHas key node = true := by
  cases node with
  | obj loc children =>
      simp only [jsonPointerStep, Option.map_eq_some'] at h
      obtain ⟨kv, hfind, -⟩ := h
      have hp := List.find?_some hfind
      have hmem := List.mem_of_find?_eq_some hfind
      exact List.any_eq_true.mpr ⟨kv, hmem, hp⟩
  | arr loc children => simp [jsonPointerStep, hnat] at h
  | null loc => simp [jsonPointerStep] at h
  | bool loc v => simp [jsonPointerStep] at h
  | num loc v => simp [jsonPointerStep] at h
  | str loc v => simp [jsonPointerStep] at h

/-- C3 counterexample: a schema whose `$schema` member is the number `42` —
a value "other than the string `https://json-schema.org/draft/2020-12/schema`"
— does not raise `UnsupportedDialect`; `validate` returns a normal validation
result (the guard on `index.js` line 47 only fires for string values). -/
theorem c3_counterexample :
    (validate 1 (fun _ _ => false) []
        (Json.obj [("$schema", Json.num 42)]) (Json.num 0)).1
      = .ok { valid := true, errors := none } := by rfl

/-- C3 (amended): only a schema whose top-level `$schema` member holds a
*string* different from `https://json-schema.org/draft/2020-12/schema` makes
`validate` terminate with the `UnsupportedDialect` error, for every instance
and before any instance evaluation; non-string `$schema` values are ignored. -/
theorem c3_dialect_error (fuel : Nat) (test : RegexTest) (reg : Registry)
    (members : List (String × Json)) (inst : Json) (l sv : String)
    (hstep : jsonPointerStep "$schema"
        (toJsonNode (Json.obj members) (deriveUri (Json.obj members)))
        = some (JsonNode.str l sv))
    (hsv : sv ≠ supportedDialect) :
    (validate fuel test reg (Json.obj members) inst).1
      = .error (dialectMsg sv) := by
  have hhas : jsonObjectHas "$schema"
      (toJsonNode (Json.obj members) (deriveUri (Json.obj members))) = true :=
    jsonObjectHas_of_step hstep (by rfl)
  obtain ⟨loc, children, hn⟩ :
      ∃ loc children,
        toJsonNode (Json.obj members) (deriveUri (Json.obj members))
          = JsonNode.obj loc children := ⟨_, _, rfl⟩
  rw [hn] at hstep hhas
  simp [validate, registerSchema, getKV_setKV_self, hn, dialectCheck,
    JsonNode.jsonType, hhas, hstep, JsonNode.strValue, hsv]

theorem c3_dialect_error_witness :
    jsonPointerStep "$schema"
        (toJsonNode (Json.obj [("$schema", Json.str "http://x")])
          (deriveUri (Json.obj [("$schema", Json.str "http://x")])))
      = some (JsonNode.str "#/$schema" "http://x")
    ∧ (validate 1 (fun _ _ => false) []
        (Json.obj [("$schema", Json.str "http://x")]) Json.null).1
      = .error (dialectMsg "http://x") :=
  ⟨rfl, c3_dialect_error 1 (fun _ _ => false) [] _ Json.null _ _ rfl (by decide)⟩

/-- C2 counterexample: from an empty registry, validating a schema whose
`$schema` is the unsupported string `"x"` terminates with a thrown schema
error, and the registry afterwards still holds the auto-registered entry
under `""` — the `delete` of `index.js` line 56 is unreachable on the throw
path, so the registry is not left in its prior state. -/
theorem c2_counterexample :
    isOkResult (validate 1 (fun _ _ => false) []
        (Json.obj [("$schema", Json.str "x")]) (Json.num 0)).1 = false
    ∧ ((validate 1 (fun _ _ => false) []
        (Json.obj [("$schema", Json.str "x")]) (Json.num 0)).2).length = 1 := by
  exact ⟨rfl, rfl⟩

theorem validate_registry (fuel : Nat) (test : RegexTest) (reg : Registry)
    (schema inst : Json) :
    ((validate fuel test reg schema inst).2 = delKV (deriveUri schema) reg
      ∧ isOkResult (validate fuel test reg schema inst).1 = true)
    ∨ ((validate fuel test reg schema inst).2
        = setKV (deriveUri schema) (toJsonNode schema (deriveUri schema)) reg
      ∧ isOkResult (validate fuel test reg schema inst).1 = false) := by
  simp only [validate, registerSchema]
  split
  · right; exact ⟨rfl, rfl⟩
  · split
    · right; exact ⟨rfl, rfl⟩
    · left
      constructor
      · simp [delKV_setKV]
      · split <;> rfl

/-- C2 (amended): on a normal return, `validate` removes the derived-URI
entry, leaving `delKV uri` of the initial registry (so the prior state is
restored exactly when no entry existed under that URI — a pre-registered
entry under it is overwritten and then deleted, not restored); on a thrown
schema error the inserted entry remains registered; entries under other URIs
are never affected. -/
theorem c2_registry_lifecycle (fuel : Nat) (test : RegexTest) (reg : Registry)
    (schema inst : Json) :
    (isOkResult (validate fuel test reg schema inst).1 = true →
      (validate fuel test reg schema inst).2 = delKV (deriveUri schema) reg)
    ∧ (isOkResult (validate fuel test reg schema inst).1 = false →
      (validate fuel test reg schema inst).2
        = setKV (deriveUri schema) (toJsonNode schema (deriveUri schema)) reg)
    ∧ (∀ k, k ≠ deriveUri schema →
      getKV k (validate fuel test reg schema inst).2 = getKV k reg) := by
  rcases validate_registry fuel test reg schema inst with ⟨h2, h1⟩ | ⟨h2, h1⟩
  · refine ⟨fun _ => h2, fun hc => ?_, fun k hk => ?_⟩
    · rw [h1] at hc; cases hc
    · rw [h2, getKV_delKV_ne k _ _ hk]
  · refine ⟨fun hc => ?_, fun _ => h2, fun k hk => ?_⟩
    · rw [h1] at hc; cases hc
    · rw [h2, getKV_setKV_ne k _ _ _ hk]

theorem c2_registry_lifecycle_witness :
    isOkResult (validate 1 (fun _ _ => false) [] (Json.bool true) Json.null).1 = true
    ∧ (validate 1 (fun _ _ => false) [] (Json.bool true) Json.null).2
        = delKV (deriveUri (Json.bool true)) [] :=
  ⟨rfl, (c2_registry_lifecycle 1 (fun _ _ => false) [] (Json.bool true) Json.null).1 rfl⟩

/-- C10: the rejection of an embedded `$id` is lazy.  First conjunct: a
schema object whose only member is `$defs` validates every instance with
`{valid: true}` whatever sits below `$defs` (the dispatcher ignores unknown
keywords and never descends into them), so an embedded `$id` in an
unreferenced `$defs` entry raises no error.  Second conjunct: the `$id`
handler itself throws the unsupported-feature error exactly when it is
invoked on a value node whose location is not the document root's `#/$id` —
which happens only when the containing object schema is applied to an
instance. -/
theorem c10_lazy_embedded_id :
    (∀ (fuel : Nat) (test : RegexTest) (reg : Registry) (defsContent inst : Json),
      (validate (fuel + 1) test reg (Json.obj [("$defs", defsContent)]) inst).1
        = .ok { valid := true, errors := none })
    ∧ (∀ (idNode instanceNode schemaNode : JsonNode),
      ¬ strEndsWith idNode.location "#/$id" →
      idHandler idNode instanceNode schemaNode
        = .error ("Embedded schemas are not supported. Found at "
            ++ schemaNode.location)) := by
  constructor
  · intro fuel test reg defsContent inst
    have hk : ∀ (recur : Recur) (r : Registry),
        keywordHandlers recur test r "$defs" = none := fun _ _ => rfl
    simp [validate, registerSchema, deriveUri, getKV_setKV_self, toJsonNode,
      buildNode, buildMembers, dialectCheck, JsonNode.jsonType, jsonObjectHas,
      JsonNode.objChildren, validateSchema, dispatchKeywords, hk]
  · intro idNode instanceNode schemaNode h
    simp [idHandler, h]

theorem c10_lazy_embedded_id_witness :
    ¬ strEndsWith (JsonNode.str "#/$defs/a/$id" "urn:x").location "#/$id"
    ∧ idHandler (JsonNode.str "#/$defs/a/$id" "urn:x") (JsonNode.null "#")
        (JsonNode.obj "#/$defs/a" [])
      = .error ("Embedded schemas are not supported. Found at "
          ++ (JsonNode.obj "#/$defs/a" ([] : List (String × JsonNode))).location) :=
  ⟨by decide, c10_lazy_embedded_id.2 _ _ _ (by decide)⟩

/-- C8: for number-valued `multipleOf` divisor `d` and number instance `x`,
the handler returns true iff the remainder `r = x % d` (JS remainder,
modelled over exact rationals) satisfies `|r - 0| < 1.19209290e-7` or
`|r - d| < 1.19209290e-7`; instances that are not numbers always pass. -/
theorem c8_multipleOf (ld li : String) (d x : Rat) :
    multipleOfHandler (JsonNode.num ld d) (JsonNode.num li x)
      = .ok (decide (|jsRem x d - 0| < tolerance ∨ |jsRem x d - d| < tolerance), [])
    ∧ (∀ v instanceNode : JsonNode, instanceNode.jsonType ≠ "number" →
        multipleOfHandler v instanceNode = .ok (true, [])) := by
  constructor
  · have h1 : |(0 : Rat) - jsRem x d| = |jsRem x d - 0| := abs_sub_comm _ _
    have h2 : |d - jsRem x d| = |jsRem x d - d| := abs_sub_comm _ _
    simp only [multipleOfHandler, assertNodeType, JsonNode.jsonType,
      JsonNode.numValue, numberEqual, h1, h2]
    simp
    rfl
  · intro v instanceNode h
    simp only [multipleOfHandler]
    exact if_pos h

theorem c8_multipleOf_witness :
    (JsonNode.str "#" "a").jsonType ≠ "number"
    ∧ multipleOfHandler (JsonNode.str "#/multipleOf" "boom") (JsonNode.str "#" "a")
        = .ok (true, []) :=
  ⟨by decide, (c8_multipleOf "#" "#" 0 0).2 _ _ (by decide)⟩

theorem dispatchKeywords_of_blocks (recur : Recur) (test : RegexTest)
    (reg : Registry) (schemaNode instanceNode : JsonNode) :
    ∀ (children : List (String × JsonNode)) (rs : List (Bool × List OutputUnit)),
      keywordBlocks recur test reg schemaNode instanceNode children = .ok rs →
      dispatchKeywords recur test reg schemaNode instanceNode children
        = .ok (rs.all (fun r => r.1), rs.flatMap (fun r => r.2)) := by
  intro children
  induction children with
  | nil =>
      intro rs h
      simp only [keywordBlocks] at h
      cases h
      rfl
  | cons kv rest ih =>
      intro rs h
      simp only [keywordBlocks, keywordBlock] at h
      cases hh : keywordHandlers recur test reg kv.1 with
      | none =>
          simp only [hh] at h
          cases hrest : keywordBlocks recur test reg schemaNode instanceNode rest with
          | error e => simp [hrest] at h
          | ok bs =>
              simp only [hrest] at h
              injection h with h2
              subst h2
              simp only [dispatchKeywords, hh]
              rw [ih bs hrest]
              simp
      | some keywordHandler =>
          simp only [hh] at h
          cases hr : keywordHandler kv.2 instanceNode schemaNode with
          | error e => simp [hr, Except.map] at h
          | ok r =>
              simp only [hr, Except.map] at h
              cases hrest : keywordBlocks recur test reg schemaNode instanceNode rest with
              | error e => simp [hrest] at h
              | ok bs =>
                  simp only [hrest] at h
                  injection h with h2
                  subst h2
                  simp only [dispatchKeywords, hh, hr]
                  rw [ih bs hrest]
                  rcases r with ⟨b, es⟩
                  cases b <;> simp

/-- C1: for an object schema, `validateSchema` is exactly the in-order
concatenation of the per-keyword blocks: for every keyword handler invocation
that returns false, the dispatcher appends one OutputUnit carrying the
keyword value node's location and the instance node's location, immediately
followed by the OutputUnits that handler buffered, keywords being processed
in document order of the schema object; overall validity is the conjunction
of the per-keyword verdicts. -/
theorem c1_dispatch_order (fuel : Nat) (test : RegexTest) (reg : Registry)
    (loc : String) (children : List (String × JsonNode)) (instanceNode : JsonNode)
    (rs : List (Bool × List OutputUnit))
    (h : keywordBlocks (validateSchema fuel test reg) test reg
        (JsonNode.obj loc children) instanceNode children = .ok rs) :
    validateSchema (fuel + 1) test reg (JsonNode.obj loc children) instanceNode
      = .ok (rs.all (fun r => r.1), rs.flatMap (fun r => r.2)) := by
  simpa [validateSchema] using
    dispatchKeywords_of_blocks (validateSchema fuel test reg) test reg
      (JsonNode.obj loc children) instanceNode children rs h

theorem c1_dispatch_order_witness :
    keywordBlocks (validateSchema 0 (fun _ _ => false) []) (fun _ _ => false) []
        (JsonNode.obj "#" [("minimum", JsonNode.num "#/minimum" 5),
                           ("type", JsonNode.str "#/type" "number")])
        (JsonNode.num "#" 3)
        [("minimum", JsonNode.num "#/minimum" 5),
         ("type", JsonNode.str "#/type" "number")]
      = .ok [(false, [{ absoluteKeywordLocation := "#/minimum",
                        instanceLocation := "#" }]),
             (true, [])]
    ∧ validateSchema 1 (fun _ _ => false) []
        (JsonNode.obj "#" [("minimum", JsonNode.num "#/minimum" 5),
                           ("type", JsonNode.str "#/type" "number")])
        (JsonNode.num "#" 3)
      = .ok (false, [{ absoluteKeywordLocation := "#/minimum",
                       instanceLocation := "#" }]) :=
  ⟨rfl, c1_dispatch_order 0 (fun _ _ => false) [] "#"
    [("minimum", JsonNode.num "#/minimum" 5),
     ("type", JsonNode.str "#/type" "number")]
    (JsonNode.num "#" 3)
    [(false, [{ absoluteKeywordLocation := "#/minimum", instanceLocation := "#" }]),
     (true, [])] rfl⟩

theorem anyOfLoop_of_results (recur : Recur) (instanceNode : JsonNode) :
    ∀ (schemas : List JsonNode) (rs : List (Bool × List OutputUnit)),
      recurEach recur instanceNode schemas = .ok rs →
      anyOfLoop recur instanceNode schemas
        = .ok (rs.any (fun r => r.1), rs.flatMap (fun r => r.2)) := by
  intro schemas
  induction schemas with
  | nil =>
      intro rs h
      simp only [recurEach] at h
      cases h
      rfl
  | cons sc rest ih =>
      intro rs h
      simp only [recurEach] at h
      cases hr : recur sc instanceNode with
      | error e => simp [hr] at h
      | ok r =>
          simp only [hr] at h
          cases hrest : recurEach recur instanceNode rest with
          | error e => simp [hrest] at h
          | ok bs =>
              simp only [hrest] at h
              injection h with h2
              subst h2
              simp only [anyOfLoop, hr]
              rw [ih bs hrest]
              simp

/-- C4: the `anyOf` handler recurses into every member schema — the member
results are exactly `recurEach` over the whole member list, with no stop at
the first success — and returns true iff at least one member validates the
instance; its buffered errors are the concatenation, in member order, of
every member's errors (so when the keyword fails, which the dispatcher
reports with the keyword-level OutputUnit of `c1_dispatch_order`, the buffer
holds the errors of every failing member, in member order). -/
theorem c4_anyOf (recur : Recur) (l : String) (schemas : List JsonNode)
    (instanceNode : JsonNode) (rs : List (Bool × List OutputUnit))
    (h : recurEach recur instanceNode schemas = .ok rs) :
    anyOfHandler recur (JsonNode.arr l schemas) instanceNode
      = .ok (rs.any (fun r => r.1), rs.flatMap (fun r => r.2)) := by
  have hloop := anyOfLoop_of_results recur instanceNode schemas rs h
  simp only [anyOfHandler, assertNodeType, JsonNode.jsonType, JsonNode.arrChildren]
  simpa using hloop

theorem c4_anyOf_witness :
    recurEach (validateSchema 1 (fun _ _ => false) []) (JsonNode.num "#" 3)
        [JsonNode.bool "#/anyOf/0" false, JsonNode.bool "#/anyOf/1" true]
      = .ok [(false, [{ absoluteKeywordLocation := "#/anyOf/0",
                        instanceLocation := "#" }]),
             (true, [])]
    ∧ anyOfHandler (validateSchema 1 (fun _ _ => false) [])
        (JsonNode.arr "#/anyOf"
          [JsonNode.bool "#/anyOf/0" false, JsonNode.bool "#/anyOf/1" true])
        (JsonNode.num "#" 3)
      = .ok (true, [{ absoluteKeywordLocation := "#/anyOf/0",
                      instanceLocation := "#" }]) :=
  ⟨rfl, c4_anyOf (validateSchema 1 (fun _ _ => false) []) "#/anyOf"
    [JsonNode.bool "#/anyOf/0" false, JsonNode.bool "#/anyOf/1" true]
    (JsonNode.num "#" 3)
    [(false, [{ absoluteKeywordLocation := "#/anyOf/0", instanceLocation := "#" }]),
     (true, [])] rfl⟩

theorem any_congr_mem {α : Type} {p q : α → Bool} :
    ∀ {l : List α}, (∀ a ∈ l, p a = q a) → l.any p = l.any q := by
  intro l
  induction l with
  | nil => intro _; rfl
  | cons a rest ih =>
      intro h
      simp only [List.any_cons]
      rw [h a (List.mem_cons_self a rest), ih (fun b hb => h b (List.mem_cons_of_mem a hb))]

theorem contains_eq_any (l : List String) (a : String) :
    l.contains a = l.any (fun b => a == b) := by
  induction l with
  | nil => rfl
  | cons b rest ih =>
      simp only [List.contains_cons, List.any_cons, ih]

theorem isDefinedProperty_characterization (test : RegexTest)
    (schemaNode : JsonNode) (children : List (String × JsonNode))
    (hne : collectPropertyPatterns schemaNode = [] →
      ∀ kv ∈ children, test "(?!)" kv.1 = false)
    (hun : collectPropertyPatterns schemaNode ≠ [] →
      ∀ kv ∈ children,
        test (String.intercalate "|" (collectPropertyPatterns schemaNode)) kv.1
          = (collectPropertyPatterns schemaNode).any (fun p => test p kv.1))
    (hanch : ∀ k ∈ propertiesKeys schemaNode, ∀ kv ∈ children,
      test ("^" ++ regexEscape k ++ "$") kv.1 = (kv.1 == k)) :
    ∀ kv ∈ children,
      isDefinedProperty test (collectPropertyPatterns schemaNode) kv.1
        = ((propertiesKeys schemaNode).contains kv.1
            || (patternPropertiesPatterns schemaNode).any (fun p => test p kv.1)) := by
  intro kv hkv
  by_cases hp : collectPropertyPatterns schemaNode = []
  · obtain ⟨h1, h2⟩ := List.append_eq_nil.mp hp
    have h1' : propertiesKeys schemaNode = [] := List.map_eq_nil_iff.mp h1
    rw [isDefinedProperty, hp]
    simp [hne hp kv hkv, h1', h2]
  · have hlen : 0 < (collectPropertyPatterns schemaNode).length :=
      List.length_pos.mpr hp
    rw [isDefinedProperty, if_pos hlen, hun hp kv hkv, collectPropertyPatterns,
      List.any_append, List.any_map, contains_eq_any]
    have : ((propertiesKeys schemaNode).any
        ((fun p => test p kv.1) ∘ fun k => "^" ++ regexEscape k ++ "$"))
        = (propertiesKeys schemaNode).any (fun b => kv.1 == b) :=
      any_congr_mem (fun k hk => hanch k hk kv hkv)
    rw [this]

/-- C5: the `additionalProperties` handler recurses its subschema into
exactly those instance members whose key is neither literally a key of the
sibling `properties` object (keys are regex-escaped and anchored as
`^<escaped>$` before matching, which under an anchored-literal regex engine
is literal key equality) nor matched by any sibling `patternProperties`
pattern; when neither sibling contributes a pattern the never-matching `(?!)`
is used, so every member is recursed into.  The regex engine enters only
through the stated hypotheses: `(?!)` matches nothing, the `|`-union matches
what some branch matches, and an anchored escaped key matches exactly that
key. -/
theorem c5_additionalProperties (test : RegexTest) (schemaNode : JsonNode)
    (li : String) (children : List (String × JsonNode))
    (hne : collectPropertyPatterns schemaNode = [] →
      ∀ kv ∈ children, test "(?!)" kv.1 = false)
    (hun : collectPropertyPatterns schemaNode ≠ [] →
      ∀ kv ∈ children,
        test (String.intercalate "|" (collectPropertyPatterns schemaNode)) kv.1
          = (collectPropertyPatterns schemaNode).any (fun p => test p kv.1))
    (hanch : ∀ k ∈ propertiesKeys schemaNode, ∀ kv ∈ children,
      test ("^" ++ regexEscape k ++ "$") kv.1 = (kv.1 == k)) :
    additionalPropertiesTargets test schemaNode (JsonNode.obj li children)
      = children.filter (fun kv =>
          !(propertiesKeys schemaNode).contains kv.1
          && !(patternPropertiesPatterns schemaNode).any (fun p => test p kv.1))
    ∧ (∀ (recur : Recur) (additionalPropertiesNode : JsonNode),
        additionalPropertiesHandler recur test additionalPropertiesNode
            (JsonNode.obj li children) schemaNode
          = validateEach recur additionalPropertiesNode
              ((children.filter (fun kv =>
                  !(propertiesKeys schemaNode).contains kv.1
                  && !(patternPropertiesPatterns schemaNode).any
                        (fun p => test p kv.1))).map (fun kv => kv.2))) := by
  have hchar := isDefinedProperty_characterization test schemaNode children hne hun hanch
  have htargets : additionalPropertiesTargets test schemaNode (JsonNode.obj li children)
      = children.filter (fun kv =>
          !(propertiesKeys schemaNode).contains kv.1
          && !(patternPropertiesPatterns schemaNode).any (fun p => test p kv.1)) := by
    rw [additionalPropertiesTargets]
    show children.filter _ = children.filter _
    refine List.filter_congr ?_
    intro kv hkv
    rw [hchar kv hkv]
    simp [Bool.not_or]
  refine ⟨htargets, fun recur additionalPropertiesNode => ?_⟩
  rw [additionalPropertiesHandler, if_neg (by simp [JsonNode.jsonType]), htargets]

theorem c5_additionalProperties_witness :
    additionalPropertiesTargets
        (fun p s => (p == "^foo$" && s == "foo")
          || (p == "^b" && s == "bar")
          || (p == "^foo$|^b" && (s == "foo" || s == "bar")))
        (JsonNode.obj "#"
          [("properties", JsonNode.obj "#/properties"
              [("foo", JsonNode.bool "#/properties/foo" true)]),
           ("patternProperties", JsonNode.obj "#/patternProperties"
              [("^b", JsonNode.bool "#/patternProperties/%5Eb" true)]),
           ("additionalProperties", JsonNode.bool "#/additionalProperties" false)])
        (JsonNode.obj "#"
          [("foo", JsonNode.num "#/foo" 1), ("bar", JsonNode.num "#/bar" 2),
           ("qux", JsonNode.num "#/qux" 3)])
      = [("qux", JsonNode.num "#/qux" 3)] := by
  have h := (c5_additionalProperties
    (fun p s => (p == "^foo$" && s == "foo")
      || (p == "^b" && s == "bar")
      || (p == "^foo$|^b" && (s == "foo" || s == "bar")))
    (JsonNode.obj "#"
      [("properties", JsonNode.obj "#/properties"
          [("foo", JsonNode.bool "#/properties/foo" true)]),
       ("patternProperties", JsonNode.obj "#/patternProperties"
          [("^b", JsonNode.bool "#/patternProperties/%5Eb" true)]),
       ("additionalProperties", JsonNode.bool "#/additionalProperties" false)])
    "#"
    [("foo", JsonNode.num "#/foo" 1), ("bar", JsonNode.num "#/bar" 2),
     ("qux", JsonNode.num "#/qux" 3)]
    (by decide) (by decide) (by decide)).1
  rw [h]
  rfl

theorem zip_getElem_some {α β : Type} :
    ∀ (l1 : List α) (l2 : List β) (i : Nat) (a : α) (b : β),
      l1[i]? = some a → l2[i]? = some b → (l1.zip l2)[i]? = some (a, b) := by
  intro l1
  induction l1 with
  | nil => intro l2 i a b h1 _; simp at h1
  | cons x xs ih =>
      intro l2 i a b h1 h2
      cases l2 with
      | nil => simp at h2
      | cons y ys =>
          cases i with
          | zero =>
              simp only [List.getElem?_cons_zero, Option.some.injEq] at h1 h2
              subst h1; subst h2
              simp [List.zip_cons_cons]
          | succ n =>
              simp only [List.getElem?_cons_succ] at h1 h2
              simpa [List.zip_cons_cons] using ih ys n a b h1 h2

theorem drop_getElem (l : List JsonNode) :
    ∀ (k j : Nat), (l.drop k)[j]? = l[k + j]? := by
  induction l with
  | nil => intro k j; simp
  | cons x xs ih =>
      intro k j
      cases k with
      | zero => simp
      | succ n =>
          simp only [List.drop_succ_cons, ih n j]
          have : n + 1 + j = n + j + 1 := by omega
          rw [this, List.getElem?_cons_succ]

/-- C6: for a schema object whose `prefixItems` is an array of length `k` and
an array instance, the two array keywords cover each index by a strict
partition: `items` recurses into exactly the elements at indices `>= k`
(element `j` of its slice is instance element `k + j`), `prefixItems`
recurses index `i` into `prefixItems[i]` exactly when `i < k` and `i` is
below the instance length, and for every index below the instance length
exactly one of `i < k`, `i >= k` holds. -/
theorem c6_prefixItems_items (schemaNode : JsonNode) (lp li : String)
    (ps cs : List JsonNode)
    (hstep : jsonPointerStep "prefixItems" schemaNode = some (JsonNode.arr lp ps)) :
    numberOfPrefixItems schemaNode = ps.length
    ∧ itemsApplied schemaNode (JsonNode.arr li cs) = cs.drop ps.length
    ∧ (∀ j : Nat, (cs.drop ps.length)[j]? = cs[ps.length + j]?)
    ∧ prefixItemsApplied (JsonNode.arr lp ps) (JsonNode.arr li cs) = ps.zip cs
    ∧ (∀ (i : Nat) (a b : JsonNode),
        ps[i]? = some a → cs[i]? = some b → (ps.zip cs)[i]? = some (a, b))
    ∧ (∀ i : Nat, i < (ps.zip cs).length ↔ i < ps.length ∧ i < cs.length)
    ∧ (∀ i : Nat, i < cs.length → (i < ps.length ↔ ¬ ps.length ≤ i)) := by
  have hhas : jsonObjectHas "prefixItems" schemaNode = true :=
    jsonObjectHas_of_step hstep (by rfl)
  have h1 : numberOfPrefixItems schemaNode = ps.length := by
    simp [numberOfPrefixItems, hhas, hstep, JsonNode.jsonType, JsonNode.arrChildren]
  refine ⟨h1, ?_, ?_, rfl, ?_, ?_, ?_⟩
  · simp [itemsApplied, h1, JsonNode.arrChildren]
  · intro j; exact drop_getElem cs ps.length j
  · exact fun i a b ha hb => zip_getElem_some ps cs i a b ha hb
  · intro i
    rw [List.length_zip]
    omega
  · intro i _
    omega

theorem c6_prefixItems_items_witness :
    jsonPointerStep "prefixItems"
        (JsonNode.obj "#"
          [("prefixItems",
             JsonNode.arr "#/prefixItems" [JsonNode.bool "#/prefixItems/0" true]),
           ("items", JsonNode.bool "#/items" false)])
      = some (JsonNode.arr "#/prefixItems" [JsonNode.bool "#/prefixItems/0" true])
    ∧ numberOfPrefixItems
        (JsonNode.obj "#"
          [("prefixItems",
             JsonNode.arr "#/prefixItems" [JsonNode.bool "#/prefixItems/0" true]),
           ("items", JsonNode.bool "#/items" false)]) = 1
    ∧ itemsApplied
        (JsonNode.obj "#"
          [("prefixItems",
             JsonNode.arr "#/prefixItems" [JsonNode.bool "#/prefixItems/0" true]),
           ("items", JsonNode.bool "#/items" false)])
        (JsonNode.arr "#" [JsonNode.num "#/0" 1, JsonNode.num "#/1" 2])
      = [JsonNode.num "#/1" 2] := by
  refine ⟨rfl, ?_, ?_⟩
  · exact (c6_prefixItems_items
      (JsonNode.obj "#"
        [("prefixItems",
           JsonNode.arr "#/prefixItems" [JsonNode.bool "#/prefixItems/0" true]),
         ("items", JsonNode.bool "#/items" false)])
      "#/prefixItems" "#"
      [JsonNode.bool "#/prefixItems/0" true]
      [JsonNode.num "#/0" 1, JsonNode.num "#/1" 2] rfl).1
  · rw [(c6_prefixItems_items
      (JsonNode.obj "#"
        [("prefixItems",
           JsonNode.arr "#/prefixItems" [JsonNode.bool "#/prefixItems/0" true]),
         ("items", JsonNode.bool "#/items" false)])
      "#/prefixItems" "#"
      [JsonNode.bool "#/prefixItems/0" true]
      [JsonNode.num "#/0" 1, JsonNode.num "#/1" 2] rfl).2.1]
    rfl

/-- C9: every shape-guarded handler (`maximum`, `minimum`,
`exclusiveMaximum`, `exclusiveMinimum`, `maxItems`, `minItems`, `maxLength`,
`minLength`, `maxProperties`, `minProperties`, `multipleOf`, `pattern`,
`required`, `uniqueItems`, `dependentRequired`, and the object/array appliers
`properties`, `patternProperties`, `propertyNames`, `dependentSchemas`,
`additionalProperties`, `items`, `prefixItems`, `contains`) returns true
before asserting the keyword value's shape whenever the instance's JSON type
is not the type the keyword constrains — so a malformed keyword value (for
example a string-valued `maximum`) raises no `InvalidSchema` error there and
the handler succeeds with an empty buffer. -/
theorem c9_shape_guards :
    (∀ v i : JsonNode, i.jsonType ≠ "number" → maximumHandler v i = .ok (true, []))
    ∧ (∀ v i : JsonNode, i.jsonType ≠ "number" → minimumHandler v i = .ok (true, []))
    ∧ (∀ v i : JsonNode, i.jsonType ≠ "number" →
        exclusiveMaximumHandler v i = .ok (true, []))
    ∧ (∀ v i : JsonNode, i.jsonType ≠ "number" →
        exclusiveMinimumHandler v i = .ok (true, []))
    ∧ (∀ v i : JsonNode, i.jsonType ≠ "number" → multipleOfHandler v i = .ok (true, []))
    ∧ (∀ v i : JsonNode, i.jsonType ≠ "array" → maxItemsHandler v i = .ok (true, []))
    ∧ (∀ v i : JsonNode, i.jsonType ≠ "array" → minItemsHandler v i = .ok (true, []))
    ∧ (∀ v i : JsonNode, i.jsonType ≠ "array" → uniqueItemsHandler v i = .ok (true, []))
    ∧ (∀ v i : JsonNode, i.jsonType ≠ "string" → maxLengthHandler v i = .ok (true, []))
    ∧ (∀ v i : JsonNode, i.jsonType ≠ "string" → minLengthHandler v i = .ok (true, []))
    ∧ (∀ (test : RegexTest) (v i : JsonNode), i.jsonType ≠ "string" →
        patternHandler test v i = .ok (true, []))
    ∧ (∀ v i : JsonNode, i.jsonType ≠ "object" →
        maxPropertiesHandler v i = .ok (true, []))
    ∧ (∀ v i : JsonNode, i.jsonType ≠ "object" →
        minPropertiesHandler v i = .ok (true, []))
    ∧ (∀ v i : JsonNode, i.jsonType ≠ "object" → requiredHandler v i = .ok (true, []))
    ∧ (∀ v i : JsonNode, i.jsonType ≠ "object" →
        dependentRequiredHandler v i = .ok (true, []))
    ∧ (∀ (recur : Recur) (v i : JsonNode), i.jsonType ≠ "object" →
        propertiesHandler recur v i = .ok (true, []))
    ∧ (∀ (recur : Recur) (test : RegexTest) (v i : JsonNode), i.jsonType ≠ "object" →
        patternPropertiesHandler recur test v i = .ok (true, []))
    ∧ (∀ (recur : Recur) (v i : JsonNode), i.jsonType ≠ "object" →
        propertyNamesHandler recur v i = .ok (true, []))
    ∧ (∀ (recur : Recur) (v i : JsonNode), i.jsonType ≠ "object" →
        dependentSchemasHandler recur v i = .ok (true, []))
    ∧ (∀ (recur : Recur) (test : RegexTest) (v i s : JsonNode), i.jsonType ≠ "object" →
        additionalPropertiesHandler recur test v i s = .ok (true, []))
    ∧ (∀ (recur : Recur) (v i s : JsonNode), i.jsonType ≠ "array" →
        itemsHandler recur v i s = .ok (true, []))
    ∧ (∀ (recur : Recur) (v i : JsonNode), i.jsonType ≠ "array" →
        prefixItemsHandler recur v i = .ok (true, []))
    ∧ (∀ (recur : Recur) (v i s : JsonNode), i.jsonType ≠ "array" →
        containsHandler recur v i s = .ok (true, [])) := by
  refine ⟨?_, ?_, ?_, ?_, ?_, ?_, ?_, ?_, ?_, ?_, ?_, ?_, ?_, ?_, ?_, ?_, ?_,
    ?_, ?_, ?_, ?_, ?_, ?_⟩
  · intro v i h; simp only [maximumHandler]; exact if_pos h
  · intro v i h; simp only [minimumHandler]; exact if_pos h
  · intro v i h; simp only [exclusiveMaximumHandler]; exact if_pos h
  · intro v i h; simp only [exclusiveMinimumHandler]; exact if_pos h
  · intro v i h; simp only [multipleOfHandler]; exact if_pos h
  · intro v i h; simp only [maxItemsHandler]; exact if_pos h
  · intro v i h; simp only [minItemsHandler]; exact if_pos h
  · intro v i h; simp only [uniqueItemsHandler]; exact if_pos h
  · intro v i h; simp only [maxLengthHandler]; exact if_pos h
  · intro v i h; simp only [minLengthHandler]; exact if_pos h
  · intro test v i h; simp only [patternHandler]; exact if_pos h
  · intro v i h; simp only [maxPropertiesHandler]; exact if_pos h
  · intro v i h; simp only [minPropertiesHandler]; exact if_pos h
  · intro v i h; simp only [requiredHandler]; exact if_pos h
  · intro v i h; simp only [dependentRequiredHandler]; exact if_pos h
  · intro recur v i h; simp only [propertiesHandler]; exact if_pos h
  · intro recur test v i h; simp only [patternPropertiesHandler]; exact if_pos h
  · intro recur v i h; simp only [propertyNamesHandler]; exact if_pos h
  · intro recur v i h; simp only [dependentSchemasHandler]; exact if_pos h
  · intro recur test v i s h; simp only [additionalPropertiesHandler]; exact if_pos h
  · intro recur v i s h; simp only [itemsHandler]; exact if_pos h
  · intro recur v i h; simp only [prefixItemsHandler]; exact if_pos h
  · intro recur v i s h; simp only [containsHandler]; exact if_pos h

theorem c9_shape_guards_witness :
    (JsonNode.str "#" "a").jsonType ≠ "number"
    ∧ maximumHandler (JsonNode.str "#/maximum" "oops") (JsonNode.str "#" "a")
        = .ok (true, []) :=
  ⟨by decide, c9_shape_guards.1 (JsonNode.str "#/maximum" "oops")
    (JsonNode.str "#" "a") (by decide)⟩
